import Mathlib

/-!
Verification development for the HTTP peer network engine of this
repository (the file net/server.rs).

The engine multiplexes HTTP conversations over a readiness-driven
reactor.  Its state is the `HttpPeer` structure: three maps keyed by
connection identifier (established conversations `peers`, live sockets
`sockets`, pending outbound connections `connecting`), plus
configuration.  The `ConversationHttp` protocol machine and the
`NetworkState` reactor are external capabilities; they are embedded
here as records whose behavioural outcomes (results of recv, chat,
send, try_flush, register, connect) are explicit data, so that every
engine function is an executable Lean function.  The reactor record
additionally keeps logs of its register, deregister and connect
invocations, so that resource claims (a socket was, or was not,
deregistered from the reactor) are stated as facts about those logs.

Maps are embedded as association lists over Nat keys; insertion
replaces the previous binding, removal drops every binding of the key,
mirroring the HashMap in the source.
-/

/-- Keys of the registry maps: connection identifiers (usize event ids). -/
abbrev EventId := Nat

/-- Opaque data URL (UrlString in the source). -/
abbrev UrlString := String

/-- Opaque HTTP request payload (HttpRequestType in the source). -/
abbrev HttpRequestType := Nat

/-- Opaque protocol message surfaced by a conversation
(StacksMessageType in the source). -/
abbrev StacksMessageType := Nat

/-- Opaque burnchain view snapshot (BurnchainView in the source). -/
abbrev BurnchainView := Nat

/-- Opaque burnchain descriptor (Burnchain in the source). -/
abbrev Burnchain := Nat

/-- Remote socket address: only the ip component is inspected by the
engine (per-host admission counts), the port is carried along. -/
structure SocketAddr where
  ip : Nat
  port : Nat

/-- A live socket handle.  peerAddr models the result of the
socket peer_addr() call: none means that call fails. -/
structure TcpStream where
  sockId : Nat
  peerAddr : Option SocketAddr

/-- The net_error variants the engine produces or inspects.  Other
transport errors are collapsed into the Other constructor. -/
inductive NetErr where
  | AlreadyConnected (event_id : EventId)
  | TooManyPeers
  | SocketError
  | PermanentlyDrained
  | InvalidMessage
  | Other (code : Nat)

/-- The connection-options scalars the engine reads. -/
structure ConnectionOptions where
  num_clients : Nat
  max_clients_per_host : Nat
  idle_timeout : Nat

/-- Behavioural outcomes of one conversation, fixed data standing for
the external HTTP protocol machine: activity timestamps, drain and
keep-alive reports, and the results its operations will return.
sendScript lists the successive results of send; an exhausted script
means send reports zero bytes written. -/
structure ConvoBehavior where
  inflight : Bool := false
  last_request_time : Nat := 0
  last_response_time : Nat := 0
  connection_time : Nat := 0
  drained : Bool := false
  keep_alive : Bool := true
  sendScript : List (Except NetErr Nat) := []
  recvResult : Except NetErr Unit := Except.ok ()
  replyErrorResult : Except NetErr Unit := Except.ok ()
  chatResult : Except NetErr (List StacksMessageType) := Except.ok []
  tryFlushResult : Except NetErr Unit := Except.ok ()
  sendRequestResult : Except NetErr Unit := Except.ok ()

/-- One established conversation (ConversationHttp in the source):
the peer address and outbound URL the engine bound at construction,
plus the behavioural record. -/
structure ConversationHttp where
  url : Option UrlString
  peer_addr : SocketAddr
  behavior : ConvoBehavior

/-- get_url accessor. -/
def ConversationHttp.get_url (c : ConversationHttp) : Option UrlString := c.url

/-- get_peer_addr accessor. -/
def ConversationHttp.get_peer_addr (c : ConversationHttp) : SocketAddr := c.peer_addr

/-- is_request_inflight accessor. -/
def ConversationHttp.is_request_inflight (c : ConversationHttp) : Bool := c.behavior.inflight

/-- get_last_request_time accessor. -/
def ConversationHttp.get_last_request_time (c : ConversationHttp) : Nat := c.behavior.last_request_time

/-- get_last_response_time accessor. -/
def ConversationHttp.get_last_response_time (c : ConversationHttp) : Nat := c.behavior.last_response_time

/-- get_connection_time accessor. -/
def ConversationHttp.get_connection_time (c : ConversationHttp) : Nat := c.behavior.connection_time

/-- is_drained accessor. -/
def ConversationHttp.is_drained (c : ConversationHttp) : Bool := c.behavior.drained

/-- is_keep_alive accessor. -/
def ConversationHttp.is_keep_alive (c : ConversationHttp) : Bool := c.behavior.keep_alive

/-- clear_timeouts resets conversation-internal retry bookkeeping;
none of that bookkeeping is observable in this embedding. -/
def ConversationHttp.clear_timeouts (c : ConversationHttp) : ConversationHttp := c

/-- ConversationHttp::new: bind the peer address and the outbound URL;
the behavioural record stands for the freshly constructed machine.
The network id, burnchain, PeerHost and options arguments of the
source constructor configure unobservable internals and are elided. -/
def ConversationHttp.new (client_addr : SocketAddr) (outbound_url : Option UrlString)
    (behav : ConvoBehavior) : ConversationHttp :=
  { url := outbound_url, peer_addr := client_addr, behavior := behav }

/-- One send call: pop the next scripted result; an exhausted script
reports zero bytes written. -/
def ConversationHttp.send (c : ConversationHttp) : (Except NetErr Nat) × ConversationHttp :=
  match c.behavior.sendScript with
  | [] => (Except.ok 0, c)
  | r :: rest => (r, { c with behavior := { c.behavior with sendScript := rest } })

/-- send_request: queue an initial outbound request on a fresh
conversation; the scripted result decides success. -/
def ConversationHttp.send_request (c : ConversationHttp) (_request : HttpRequestType) :
    Except NetErr ConversationHttp :=
  match c.behavior.sendRequestResult with
  | Except.ok _ => Except.ok c
  | Except.error e => Except.error e

/-- Association list lookup: first binding of the key wins, as in the
source HashMap (which holds at most one binding per key). -/
def alookup {β : Type} : List (Nat × β) → Nat → Option β
  | [], _ => none
  | kv :: rest, key => if kv.1 = key then some kv.2 else alookup rest key

/-- Remove every binding of a key. -/
def aremove {β : Type} (l : List (Nat × β)) (key : Nat) : List (Nat × β) :=
  l.filter (fun kv => decide (kv.1 ≠ key))

/-- Insert, replacing any previous binding of the key. -/
def ainsert {β : Type} (l : List (Nat × β)) (key : Nat) (v : β) : List (Nat × β) :=
  (key, v) :: aremove l key

/-- contains_key. -/
def acontains {β : Type} (l : List (Nat × β)) (key : Nat) : Bool :=
  (alookup l key).isSome

/-- A list of bindings represents a HashMap when its keys are distinct. -/
abbrev keysNodup {β : Type} (l : List (Nat × β)) : Prop :=
  (l.map Prod.fst).Nodup

/-- The reactor capability (NetworkState in the source).  The result
fields are oracles fixing what each call would return; the call logs
(registerCalls, deregCalls, connectCalls) record which resource
operations the engine actually performed, so that leak claims are
statements about these logs. -/
structure NetworkState where
  nextFreeEventId : Nat
  registerResult : EventId → Except NetErr Unit
  connectResult : SocketAddr → Except NetErr TcpStream
  deregisterResult : EventId → Except NetErr Unit
  registerCalls : List EventId
  deregCalls : List EventId
  connectCalls : List SocketAddr

/-- network_state.register(handle, event_id, sock): scripted result,
and the call is logged. -/
def NetworkState.register (ns : NetworkState) (_handle : Nat) (event_id : EventId) :
    (Except NetErr Unit) × NetworkState :=
  (ns.registerResult event_id,
   { ns with registerCalls := ns.registerCalls ++ [event_id] })

/-- network_state.deregister(event_id, sock): the engine always
ignores the returned Result, so only the logged call is kept. -/
def NetworkState.deregister (ns : NetworkState) (event_id : EventId) : NetworkState :=
  { ns with deregCalls := ns.deregCalls ++ [event_id] }

/-- NetworkState::connect(addr): open an outbound socket; scripted
result, and the attempt is logged. -/
def NetworkState.connect (ns : NetworkState) (addr : SocketAddr) :
    (Except NetErr TcpStream) × NetworkState :=
  (ns.connectResult addr, { ns with connectCalls := ns.connectCalls ++ [addr] })

/-- network_state.next_event_id(): hand out a fresh identifier. -/
def NetworkState.next_event_id (ns : NetworkState) : Nat × NetworkState :=
  (ns.nextFreeEventId, { ns with nextFreeEventId := ns.nextFreeEventId + 1 })

/-- Environment of one engine step: the behavioural record a freshly
constructed conversation will carry (indexed by its event id), and the
current wall-clock time (get_epoch_time_secs in the source). -/
structure Env where
  newConvoBehavior : EventId → ConvoBehavior
  now : Nat

/-- One poll cycle of readiness data (NetworkPollState in the source):
newly accepted sockets, and event ids ready for I/O. -/
structure NetworkPollState where
  new : List (EventId × TcpStream)
  ready : List EventId

/-- The engine state (HttpPeer in the source). -/
structure HttpPeer where
  network_id : Nat
  chain_view : BurnchainView
  peers : List (EventId × ConversationHttp)
  sockets : List (EventId × TcpStream)
  connecting : List (EventId × (TcpStream × Option UrlString × Option HttpRequestType))
  http_server_handle : Nat
  burnchain : Burnchain
  connection_opts : ConnectionOptions

/-- find_free_conversation helper: first established conversation
whose URL equals data_url and which has no request in flight. -/
def findFreeGo (data_url : UrlString) : List (EventId × ConversationHttp) → Option EventId
  | [] => none
  | kv :: rest =>
    match kv.2.get_url with
    | some url =>
      if url = data_url ∧ kv.2.is_request_inflight = false then some kv.1
      else findFreeGo data_url rest
    | none => findFreeGo data_url rest

/-- Is there a HTTP conversation open to this data_url that is not in
progress? -/
def HttpPeer.find_free_conversation (s : HttpPeer) (data_url : UrlString) : Option EventId :=
  findFreeGo data_url s.peers

/-- connect_http: connect to a remote HTTP endpoint, idempotently.
The mutable borrows of the source become explicit result state. -/
def HttpPeer.connect_http (s : HttpPeer) (ns : NetworkState) (data_url : UrlString)
    (addr : SocketAddr) (request : Option HttpRequestType) :
    (Except NetErr EventId) × HttpPeer × NetworkState :=
  match s.find_free_conversation data_url with
  | some event_id => (Except.error (NetErr.AlreadyConnected event_id), s, ns)
  | none =>
    match NetworkState.connect ns addr with
    | (Except.error e, ns) => (Except.error e, s, ns)
    | (Except.ok sock, ns) =>
      match NetworkState.next_event_id ns with
      | (next_event_id, ns) =>
        match NetworkState.register ns s.http_server_handle next_event_id with
        | (Except.error e, ns) => (Except.error e, s, ns)
        | (Except.ok _, ns) =>
          (Except.ok next_event_id,
           { s with connecting := ainsert s.connecting next_event_id (sock, some data_url, request) },
           ns)

/-- How many conversations are connected from this IP address?  Only
inbound conversations (no outbound URL) are counted. -/
def HttpPeer.count_inbound_ip_addrs (s : HttpPeer) (peer_addr : SocketAddr) : Nat :=
  s.peers.foldl
    (fun count kv =>
      if kv.2.get_url = none ∧ kv.2.get_peer_addr.ip = peer_addr.ip then count + 1 else count)
    0

/-- Can we register this socket?  Inbound registrations are capped by
num_clients; any registration is rejected when the number of inbound
conversations from the same host strictly exceeds
max_clients_per_host. -/
def HttpPeer.can_register_http (s : HttpPeer) (peer_addr : SocketAddr)
    (outbound_url : Option UrlString) : Except NetErr Unit :=
  if outbound_url = none ∧ s.peers.length + 1 > s.connection_opts.num_clients then
    Except.error NetErr.TooManyPeers
  else
    if s.count_inbound_ip_addrs peer_addr > s.connection_opts.max_clients_per_host then
      Except.error NetErr.TooManyPeers
    else Except.ok ()

/-- saturate_http_socket send loop over the scripted send results:
stop at the first zero-length send, fail on a send error, and return
the unconsumed remainder of the script. -/
def saturateGo : List (Except NetErr Nat) → Except NetErr (List (Except NetErr Nat))
  | [] => Except.ok []
  | Except.error e :: _ => Except.error e
  | Except.ok 0 :: rest => Except.ok rest
  | Except.ok (_ + 1) :: rest => saturateGo rest

/-- saturate_http_socket: send repeatedly until the conversation
reports a zero-length send (socket buffer full or nothing left), or a
send fails.  The socket and chainstate arguments of the source are
absorbed into the conversation behaviour script. -/
def HttpPeer.saturate_http_socket (convo : ConversationHttp) : Except NetErr ConversationHttp :=
  match saturateGo convo.behavior.sendScript with
  | Except.error e => Except.error e
  | Except.ok rest => Except.ok { convo with behavior := { convo.behavior with sendScript := rest } }

/-- register_http: the commit point.  Read the peer address; check
admission; build the conversation; optionally send the initial request
and saturate the socket; only then insert into sockets and peers.  On
the peer-address failure path the source returns without deregistering
the socket from the reactor; on the other failure paths it
deregisters. -/
def HttpPeer.register_http (s : HttpPeer) (ns : NetworkState) (env : Env) (event_id : EventId)
    (socket : TcpStream) (outbound_url : Option UrlString)
    (initial_request : Option HttpRequestType) :
    (Except NetErr Unit) × HttpPeer × NetworkState :=
  match socket.peerAddr with
  | none => (Except.error NetErr.SocketError, s, ns)
  | some client_addr =>
    match s.can_register_http client_addr outbound_url with
    | Except.error e => (Except.error e, s, NetworkState.deregister ns event_id)
    | Except.ok _ =>
      match initial_request with
      | none =>
        (Except.ok (),
         { s with sockets := ainsert s.sockets event_id socket,
                  peers := ainsert s.peers event_id
                    (ConversationHttp.new client_addr outbound_url
                      (env.newConvoBehavior event_id)) },
         ns)
      | some request =>
        match (ConversationHttp.new client_addr outbound_url
            (env.newConvoBehavior event_id)).send_request request with
        | Except.error e => (Except.error e, s, NetworkState.deregister ns event_id)
        | Except.ok new_convo =>
          match HttpPeer.saturate_http_socket new_convo with
          | Except.error e => (Except.error e, s, NetworkState.deregister ns event_id)
          | Except.ok new_convo =>
            (Except.ok (),
             { s with sockets := ainsert s.sockets event_id socket,
                      peers := ainsert s.peers event_id new_convo },
             ns)

/-- deregister_http: remove the conversation if present; when a socket
is held, deregister it from the reactor regardless of the reactor
result, and drop the socket and any pending-connect entry.  Note the
source purges the pending-connect entry only inside the
socket-present branch. -/
def HttpPeer.deregister_http (s : HttpPeer) (ns : NetworkState) (event_id : EventId) :
    HttpPeer × NetworkState :=
  let s :=
    if acontains s.peers event_id then { s with peers := aremove s.peers event_id } else s
  match alookup s.sockets event_id with
  | none => (s, ns)
  | some _sock =>
    ({ s with sockets := aremove s.sockets event_id,
              connecting := aremove s.connecting event_id },
     NetworkState.deregister ns event_id)

/-- Fold step used for every deregistration sweep in run. -/
def deregStep (acc : HttpPeer × NetworkState) (event_id : EventId) : HttpPeer × NetworkState :=
  HttpPeer.deregister_http acc.1 acc.2 event_id

/-- Effective last-request time: the connection time stands in while
no request was ever received. -/
def HttpPeer.effective_last_request (c : ConversationHttp) : Nat :=
  if c.get_last_request_time = 0 then c.get_connection_time else c.get_last_request_time

/-- Effective last-response time: the connection time stands in while
no response was ever sent. -/
def HttpPeer.effective_last_response (c : ConversationHttp) : Nat :=
  if c.get_last_response_time = 0 then c.get_connection_time else c.get_last_response_time

/-- The idle-eviction test of disconnect_unresponsive: both effective
activity times must be idle_timeout behind the current time. -/
def isIdle (opts : ConnectionOptions) (now : Nat) (kv : EventId × ConversationHttp) : Bool :=
  decide (HttpPeer.effective_last_request kv.2 + opts.idle_timeout < now ∧
          HttpPeer.effective_last_response kv.2 + opts.idle_timeout < now)

/-- disconnect_unresponsive: collect every idle conversation, then
deregister each of them. -/
def HttpPeer.disconnect_unresponsive (s : HttpPeer) (ns : NetworkState) (now : Nat) :
    HttpPeer × NetworkState :=
  let to_remove := (s.peers.filter (isIdle s.connection_opts now)).map Prod.fst
  List.foldl deregStep (s, ns) to_remove

/-- Fold step of process_new_sockets: skip known event ids, register
with the reactor, then commit through register_http; any failure just
skips the socket. -/
def processNewStep (env : Env) (acc : List EventId × HttpPeer × NetworkState)
    (kv : EventId × TcpStream) : List EventId × HttpPeer × NetworkState :=
  if acontains acc.2.1.peers kv.1 then acc
  else
    match NetworkState.register acc.2.2 acc.2.1.http_server_handle kv.1 with
    | (Except.error _, ns) => (acc.1, acc.2.1, ns)
    | (Except.ok _, ns) =>
      match acc.2.1.register_http ns env kv.1 kv.2 none none with
      | (Except.error _, s, ns) => (acc.1, s, ns)
      | (Except.ok _, s, ns) => (acc.1 ++ [kv.1], s, ns)

/-- process_new_sockets: absorb newly accepted inbound sockets; the
overall result is always Ok (failures only skip one socket). -/
def HttpPeer.process_new_sockets (s : HttpPeer) (ns : NetworkState) (env : Env)
    (newSockets : List (EventId × TcpStream)) :
    (Except NetErr (List EventId)) × HttpPeer × NetworkState :=
  let t := newSockets.foldl (processNewStep env) ([], s, ns)
  (Except.ok t.1, t.2.1, t.2.2)

/-- process_http_conversation: receive, react, send.  The receive
outcome drives convo_dead; chatting happens even when receive failed;
the send pass is skipped once the conversation is dead.  Always
returns Ok((alive, msgs)). -/
def HttpPeer.process_http_conversation (_chain_view : BurnchainView) (_event_id : EventId)
    (convo : ConversationHttp) :
    (Except NetErr (Bool × List StacksMessageType)) × ConversationHttp :=
  let r1 : Bool × ConversationHttp :=
    match convo.behavior.recvResult with
    | Except.ok _ => (false, convo)
    | Except.error NetErr.PermanentlyDrained => (true, convo)
    | Except.error NetErr.InvalidMessage =>
      match convo.behavior.replyErrorResult with
      | Except.ok _ =>
        match HttpPeer.saturate_http_socket convo with
        | Except.ok c2 => (false, c2)
        | Except.error _ => (true, convo)
      | Except.error _ => (true, convo)
    | Except.error _ => (true, convo)
  let md : List StacksMessageType × Bool :=
    match r1.2.behavior.chatResult with
    | Except.ok ms => (ms, false)
    | Except.error _ => ([], true)
  let dead1 := r1.1 || md.2
  let r2 : Bool × ConversationHttp :=
    if dead1 then (dead1, r1.2)
    else
      match r1.2.send with
      | (Except.ok _, c3) => (false, c3)
      | (Except.error _, c3) => (true, c3)
  (Except.ok (!r2.1, md.1), r2.2)

/-- is_connecting accessor. -/
def HttpPeer.is_connecting (s : HttpPeer) (event_id : EventId) : Bool :=
  acontains s.connecting event_id

/-- Fold step of process_connecting_sockets: a ready event id still in
the pending map is removed from it and committed through
register_http; a failure only drops the attempt. -/
def processConnectingStep (env : Env) (acc : HttpPeer × NetworkState) (event_id : EventId) :
    HttpPeer × NetworkState :=
  match alookup acc.1.connecting event_id with
  | none => acc
  | some entry =>
    match HttpPeer.register_http { acc.1 with connecting := aremove acc.1.connecting event_id }
        acc.2 env event_id entry.1 entry.2.1 entry.2.2 with
    | (_, s, ns) => (s, ns)

/-- process_connecting_sockets: promote completed outbound
connections among the ready event ids. -/
def HttpPeer.process_connecting_sockets (s : HttpPeer) (ns : NetworkState) (env : Env)
    (ready : List EventId) : HttpPeer × NetworkState :=
  ready.foldl (processConnectingStep env) (s, ns)

/-- Fold step of process_ready_sockets: a ready id without a socket or
without a conversation is marked for removal; otherwise the
conversation is driven and its messages collected, marking it for
removal when it died. -/
def processReadyStep (acc : (List StacksMessageType × List EventId) × HttpPeer)
    (event_id : EventId) : (List StacksMessageType × List EventId) × HttpPeer :=
  if acontains acc.2.sockets event_id then
    match alookup acc.2.peers event_id with
    | some convo =>
      match HttpPeer.process_http_conversation acc.2.chain_view event_id convo with
      | (Except.ok res, convo2) =>
        ((acc.1.1 ++ res.2, if res.1 then acc.1.2 else acc.1.2 ++ [event_id]),
         { acc.2 with peers := ainsert acc.2.peers event_id convo2 })
      | (Except.error _, convo2) =>
        ((acc.1.1, acc.1.2 ++ [event_id]),
         { acc.2 with peers := ainsert acc.2.peers event_id convo2 })
    | none => ((acc.1.1, acc.1.2 ++ [event_id]), acc.2)
  else ((acc.1.1, acc.1.2 ++ [event_id]), acc.2)

/-- process_ready_sockets: drive every ready established
conversation; return the collected messages and the dead event ids. -/
def HttpPeer.process_ready_sockets (s : HttpPeer) (ready : List EventId) :
    (List StacksMessageType × List EventId) × HttpPeer :=
  ready.foldl processReadyStep (([], []), s)

/-- Fold step of flush_conversations: a flush error marks the
conversation for closing; independently a drained, non-keep-alive
conversation is marked for closing. -/
def flushStep (close : List EventId) (kv : EventId × ConversationHttp) : List EventId :=
  let close :=
    match kv.2.behavior.tryFlushResult with
    | Except.ok _ => close
    | Except.error _ => close ++ [kv.1]
  if kv.2.is_drained && !kv.2.is_keep_alive then close ++ [kv.1] else close

/-- flush_conversations: try_flush every conversation and return the
event ids to close.  try_flush touches only conversation-internal
buffers, so the engine state is returned unchanged. -/
def HttpPeer.flush_conversations (s : HttpPeer) : List EventId × HttpPeer :=
  (s.peers.foldl flushStep [], s)

/-- The clear_timeouts housekeeping pass over one binding. -/
def clearStep (kv : EventId × ConversationHttp) : EventId × ConversationHttp :=
  (kv.1, kv.2.clear_timeouts)

/-- run: one engine tick.  Update the chain view, absorb new sockets,
promote completed outbound connections, drive ready conversations and
deregister the dead ones, flush and deregister closed ones, clear
per-conversation timeout bookkeeping, evict idle conversations, and
return the collected messages. -/
def HttpPeer.run (s : HttpPeer) (ns : NetworkState) (new_chain_view : BurnchainView)
    (env : Env) (ps : NetworkPollState) :
    (Except NetErr (List StacksMessageType)) × HttpPeer × NetworkState :=
  let s0 := { s with chain_view := new_chain_view }
  match HttpPeer.process_new_sockets s0 ns env ps.new with
  | (Except.error e, s1, ns1) => (Except.error e, s1, ns1)
  | (Except.ok _, s1, ns1) =>
    let b := HttpPeer.process_connecting_sockets s1 ns1 env ps.ready
    let r := HttpPeer.process_ready_sockets b.1 ps.ready
    let d := List.foldl deregStep (r.2, b.2) r.1.2
    let f := HttpPeer.flush_conversations d.1
    let g := List.foldl deregStep (f.2, d.2) f.1
    let s7 := { g.1 with peers := g.1.peers.map clearStep }
    let h := HttpPeer.disconnect_unresponsive s7 g.2 env.now
    (Except.ok r.1.1, h.1, h.2)

/-- State after absorbing new sockets and promoting completed
outbound connections (phases 1 and 2 of run), for a state whose chain
view is already updated. -/
def HttpPeer.afterConnecting (s : HttpPeer) (ns : NetworkState) (env : Env)
    (ps : NetworkPollState) : HttpPeer × NetworkState :=
  let a := HttpPeer.process_new_sockets s ns env ps.new
  HttpPeer.process_connecting_sockets a.2.1 a.2.2 env ps.ready

/-- State after additionally driving the ready conversations and
deregistering the dead ones (phases 3 and 4 of run): the registry as
it stands when the flush pass begins, together with the collected
messages and the dead event ids. -/
def HttpPeer.beforeFlush (s : HttpPeer) (ns : NetworkState) (env : Env)
    (ps : NetworkPollState) :
    (HttpPeer × NetworkState) × List StacksMessageType × List EventId :=
  let b := HttpPeer.afterConnecting s ns env ps
  let r := HttpPeer.process_ready_sockets b.1 ps.ready
  (List.foldl deregStep (r.2, b.2) r.1.2, r.1.1, r.1.2)

/-- The phases of run after the ready conversations were driven and
the dead ones deregistered: flush and deregister closed
conversations, clear timeout bookkeeping, evict idle conversations. -/
def HttpPeer.runTail (d : HttpPeer × NetworkState) (now : Nat) : HttpPeer × NetworkState :=
  let f := HttpPeer.flush_conversations d.1
  let g := List.foldl deregStep (f.2, d.2) f.1
  let s7 := { g.1 with peers := g.1.peers.map clearStep }
  HttpPeer.disconnect_unresponsive s7 g.2 now

/-- Absence of an event id from the conversation and socket maps. -/
def absentPS (id : EventId) (t : HttpPeer × NetworkState) : Prop :=
  alookup t.1.peers id = none ∧ alookup t.1.sockets id = none

/-- Absence of an event id from the pending-connect map. -/
def connNone (id : EventId) (t : HttpPeer × NetworkState) : Prop :=
  alookup t.1.connecting id = none

/-- Agreement of the configuration-like fields of the engine state:
everything except the three registry maps. -/
def sameFrame (a b : HttpPeer) : Prop :=
  b.network_id = a.network_id ∧ b.chain_view = a.chain_view ∧ b.burnchain = a.burnchain ∧
  b.connection_opts = a.connection_opts ∧ b.http_server_handle = a.http_server_handle

/-- Default connection options used by the concrete examples. -/
def opts0 : ConnectionOptions :=
  { num_clients := 10, max_clients_per_host := 10, idle_timeout := 60 }

/-- A remote address used by the concrete examples. -/
def addr0 : SocketAddr := { ip := 1, port := 80 }

/-- A healthy socket whose peer address reads back addr0. -/
def sock0 : TcpStream := { sockId := 50, peerAddr := some addr0 }

/-- A reactor state whose calls all succeed and whose logs are empty. -/
def ns0 : NetworkState :=
  { nextFreeEventId := 100,
    registerResult := fun _ => Except.ok (),
    connectResult := fun _ => Except.ok sock0,
    deregisterResult := fun _ => Except.ok (),
    registerCalls := [], deregCalls := [], connectCalls := [] }

/-- An environment whose fresh conversations behave benignly. -/
def env0 : Env := { newConvoBehavior := fun _ => {}, now := 0 }

/-- An engine state with empty registry maps. -/
def basePeer : HttpPeer :=
  { network_id := 0, chain_view := 0, peers := [], sockets := [], connecting := [],
    http_server_handle := 1, burnchain := 0, connection_opts := opts0 }

/-- Target URL of the pending outbound connection in the C1 example. -/
def url1 : UrlString := "http://peer.example"

/-- A pending-connect record awaiting completion. -/
def pendingEntry1 : TcpStream × Option UrlString × Option HttpRequestType :=
  (sock0, some url1, none)

/-- Engine state whose identifier 7 is present only in the
pending-connect map. -/
def sC1 : HttpPeer := { basePeer with connecting := [(7, pendingEntry1)] }

/-- Options with per-host limit 2 and ample total capacity. -/
def opts2 : ConnectionOptions :=
  { num_clients := 10, max_clients_per_host := 2, idle_timeout := 60 }

/-- An inbound conversation (no outbound URL) from ip 1. -/
def inboundConvo (p : Nat) : ConversationHttp :=
  ConversationHttp.new { ip := 1, port := p } none {}

/-- Engine state already holding two inbound conversations from the
host with ip 1, under per-host limit 2. -/
def sC2 : HttpPeer :=
  { basePeer with connection_opts := opts2,
                  peers := [(1, inboundConvo 10), (2, inboundConvo 11)],
                  sockets := [(1, sock0), (2, sock0)] }

/-- A third inbound socket from the same host ip 1. -/
def sock3 : TcpStream := { sockId := 53, peerAddr := some { ip := 1, port := 12 } }

/-- A socket whose peer-address read fails. -/
def sockBad : TcpStream := { sockId := 9, peerAddr := none }

/-- Target URL of the established conversation in the C4 example. -/
def url4 : UrlString := "http://data.example"

/-- An established outbound conversation to url4 with no request in
flight. -/
def freeConvo : ConversationHttp := ConversationHttp.new addr0 (some url4) {}

/-- Engine state holding a free conversation to url4 as event 4. -/
def sC4 : HttpPeer := { basePeer with peers := [(4, freeConvo)], sockets := [(4, sock0)] }

/-- Options with total-peer limit 1. -/
def opts5 : ConnectionOptions :=
  { num_clients := 1, max_clients_per_host := 10, idle_timeout := 60 }

/-- Engine state already at the total-peer limit of 1. -/
def sC5 : HttpPeer :=
  { basePeer with connection_opts := opts5,
                  peers := [(1, inboundConvo 10)], sockets := [(1, sock0)] }

/-- Outbound URL used in the C5 exemption example. -/
def url5 : UrlString := "http://u5.example"

/-- A conversation idle on both request and response sides for 61
seconds at time 1000 under a 60 second idle timeout. -/
def cOld : ConversationHttp :=
  ConversationHttp.new addr0 none { last_request_time := 939, last_response_time := 939 }

/-- A conversation with an old request but a response only 10 seconds
in the past at time 1000. -/
def cFresh : ConversationHttp :=
  ConversationHttp.new addr0 none { last_request_time := 939, last_response_time := 990 }

/-- Engine state holding one evictable and one fresh conversation. -/
def sC6 : HttpPeer :=
  { basePeer with peers := [(1, cOld), (2, cFresh)],
                  sockets := [(1, sock0), (2, sock0)] }

/-- A drained, non-keep-alive conversation. -/
def cDrained : ConversationHttp :=
  ConversationHttp.new addr0 none { drained := true, keep_alive := false }

/-- Engine state holding the drained conversation as event 4. -/
def sC7 : HttpPeer := { basePeer with peers := [(4, cDrained)], sockets := [(4, sock0)] }

/-- A poll cycle with no readiness data at all. -/
def psEmpty : NetworkPollState := { new := [], ready := [] }

/-- Target URL of the pending outbound connection in the C8 example. -/
def url8 : UrlString := "http://out.example"

/-- The socket of the pending outbound connection in the C8 example. -/
def sock8 : TcpStream := { sockId := 58, peerAddr := some { ip := 9, port := 1 } }

/-- Behaviour whose chat step yields one protocol message. -/
def behav8 : ConvoBehavior := { chatResult := Except.ok [42] }

/-- Environment handing behav8 to freshly registered conversations. -/
def env8 : Env := { newConvoBehavior := fun _ => behav8, now := 0 }

/-- Engine state whose identifier 5 is a pending outbound connection. -/
def sC8 : HttpPeer := { basePeer with connecting := [(5, (sock8, some url8, none))] }

/-- A poll cycle reporting the pending connection 5 as ready. -/
def ps8 : NetworkPollState := { new := [], ready := [5] }

/-- The conversation the engine constructs when promoting event 5. -/
def c8conv : ConversationHttp :=
  ConversationHttp.new { ip := 9, port := 1 } (some url8) behav8

/-- A conversation whose receive reports the remote side closed. -/
def cBad : ConversationHttp :=
  ConversationHttp.new addr0 none { recvResult := Except.error NetErr.PermanentlyDrained }

/-- Engine state holding the failing conversation as event 3. -/
def sC9 : HttpPeer := { basePeer with peers := [(3, cBad)], sockets := [(3, sock0)] }

/-- A poll cycle reporting event 3 ready. -/
def ps9 : NetworkPollState := { new := [], ready := [3] }


theorem aremove_cons_drop {β : Type} (a : Nat) (b : β) (rest : List (Nat × β)) (k : Nat)
    (h : a = k) : aremove ((a, b) :: rest) k = aremove rest k := by
  simp [aremove, h]

theorem aremove_cons_keep {β : Type} (a : Nat) (b : β) (rest : List (Nat × β)) (k : Nat)
    (h : ¬a = k) : aremove ((a, b) :: rest) k = (a, b) :: aremove rest k := by
  simp [aremove, h]

theorem alookup_aremove {β : Type} (l : List (Nat × β)) (k k' : Nat) :
    alookup (aremove l k) k' = if k' = k then none else alookup l k' := by
  induction l with
  | nil => simp [aremove, alookup]
  | cons kv rest ih =>
    obtain ⟨a, b⟩ := kv
    by_cases hk : a = k
    · rw [aremove_cons_drop a b rest k hk, ih]
      by_cases hk' : k' = k
      · simp [hk']
      · have ha : ¬a = k' := by
          rw [hk]
          exact fun he => hk' he.symm
        simp [alookup, ha, hk']
    · rw [aremove_cons_keep a b rest k hk]
      by_cases hk' : a = k'
      · have hkk : ¬k' = k := by
          rw [← hk']
          exact fun he => hk he
        simp [alookup, hk', hkk]
      · simp [alookup, hk', ih]

theorem alookup_ainsert {β : Type} (l : List (Nat × β)) (k : Nat) (v : β) (k' : Nat) :
    alookup (ainsert l k v) k' = if k' = k then some v else alookup l k' := by
  by_cases h : k' = k
  · simp [ainsert, alookup, h]
  · have h2 : ¬k = k' := fun he => h he.symm
    simp [ainsert, alookup, h, h2, alookup_aremove]

theorem alookup_ainsert_self {β : Type} (l : List (Nat × β)) (k : Nat) (v : β) :
    alookup (ainsert l k v) k = some v := by
  simp [alookup_ainsert]

theorem alookup_ainsert_ne {β : Type} (l : List (Nat × β)) (k : Nat) (v : β) (k' : Nat)
    (h : k' ≠ k) : alookup (ainsert l k v) k' = alookup l k' := by
  simp [alookup_ainsert, h]

theorem alookup_aremove_self {β : Type} (l : List (Nat × β)) (k : Nat) :
    alookup (aremove l k) k = none := by
  simp [alookup_aremove]

theorem alookup_aremove_ne {β : Type} (l : List (Nat × β)) (k k' : Nat) (h : k' ≠ k) :
    alookup (aremove l k) k' = alookup l k' := by
  simp [alookup_aremove, h]

theorem alookup_some_mem {β : Type} {l : List (Nat × β)} {k : Nat} {v : β}
    (h : alookup l k = some v) : (k, v) ∈ l := by
  induction l with
  | nil => simp [alookup] at h
  | cons kv rest ih =>
    obtain ⟨a, b⟩ := kv
    by_cases hk : a = k
    · simp only [alookup, hk, if_pos] at h
      subst hk
      cases h
      exact List.mem_cons_self _ _
    · simp only [alookup, hk, if_false] at h
      exact List.mem_cons_of_mem _ (ih h)

theorem alookup_of_mem_nodup {β : Type} {l : List (Nat × β)} {k : Nat} {v : β}
    (hnd : keysNodup l) (h : (k, v) ∈ l) : alookup l k = some v := by
  induction l with
  | nil => simp at h
  | cons kv rest ih =>
    rcases List.mem_cons.mp h with h1 | h1
    · subst h1
      simp [alookup]
    · have hk : kv.1 ≠ k := by
        intro he
        have : k ∈ rest.map Prod.fst := List.mem_map.mpr ⟨(k, v), h1, rfl⟩
        have hnd' := (List.nodup_cons.mp hnd).1
        rw [he] at hnd'
        exact hnd' this
      have hnd2 : keysNodup rest := (List.nodup_cons.mp hnd).2
      simp [alookup, hk, ih hnd2 h1]

/-- Fold invariant: a property preserved by every step applied to a
member of the list is preserved by the whole fold. -/
theorem foldl_pres_mem {σ α : Type} (P : σ → Prop) (f : σ → α → σ) :
    ∀ (l : List α) (acc : σ), P acc → (∀ acc' x, x ∈ l → P acc' → P (f acc' x)) →
      P (List.foldl f acc l) := by
  intro l
  induction l with
  | nil => intro acc h _; simpa using h
  | cons hd tl ih =>
    intro acc h hstep
    simp only [List.foldl_cons]
    exact ih (f acc hd) (hstep acc hd (List.mem_cons_self _ _) h)
      (fun acc' x hx => hstep acc' x (List.mem_cons_of_mem _ hx))

/-- Fold establishment: if some member of the list establishes a
property from any accumulator, and every step preserves it, the whole
fold establishes it. -/
theorem foldl_estab {σ α : Type} (P : σ → Prop) (f : σ → α → σ) (x : α) :
    ∀ (l : List α) (acc : σ), x ∈ l → (∀ acc', P (f acc' x)) →
      (∀ acc' y, P acc' → P (f acc' y)) → P (List.foldl f acc l) := by
  intro l
  induction l with
  | nil => intro acc hx _ _; simp at hx
  | cons hd tl ih =>
    intro acc hx hhit hpres
    rcases List.mem_cons.mp hx with h1 | h1
    · subst h1
      simp only [List.foldl_cons]
      exact foldl_pres_mem P f tl (f acc x) (hhit acc) (fun acc' y _ => hpres acc' y)
    · simp only [List.foldl_cons]
      exact ih (f acc hd) h1 hhit hpres

/-- run decomposes into the phases before the flush pass and the
remaining flush, clear and eviction phases; the surfaced result is
always the Ok of the messages collected while driving ready
conversations. -/
theorem run_decompose (s : HttpPeer) (ns : NetworkState) (v : BurnchainView) (env : Env)
    (ps : NetworkPollState) :
    HttpPeer.run s ns v env ps =
      (Except.ok (HttpPeer.beforeFlush { s with chain_view := v } ns env ps).2.1,
       HttpPeer.runTail (HttpPeer.beforeFlush { s with chain_view := v } ns env ps).1 env.now) := by
  rfl

theorem acontains_false_alookup {β : Type} {l : List (Nat × β)} {k : Nat}
    (h : acontains l k = false) : alookup l k = none := by
  cases hl : alookup l k with
  | none => rfl
  | some v => simp [acontains, hl] at h

theorem acontains_true_of_some {β : Type} {l : List (Nat × β)} {k : Nat} {v : β}
    (h : alookup l k = some v) : acontains l k = true := by
  simp [acontains, h]

/-- After deregister_http, the conversation map holds the event id no
longer; other bindings are untouched. -/
theorem deregister_http_peers (s : HttpPeer) (ns : NetworkState) (e k : EventId) :
    alookup (HttpPeer.deregister_http s ns e).1.peers k =
      if k = e then none else alookup s.peers k := by
  unfold HttpPeer.deregister_http
  cases hp : acontains s.peers e with
  | false =>
    simp only [hp, Bool.false_eq_true, if_false]
    cases hs : alookup s.sockets e with
    | none =>
      simp only [hs]
      by_cases hk : k = e
      · subst hk
        simp [acontains_false_alookup hp]
      · simp [hk]
    | some sock =>
      simp only [hs]
      by_cases hk : k = e
      · subst hk
        simp [acontains_false_alookup hp]
      · simp [hk]
  | true =>
    simp only [hp, if_true]
    cases hs : alookup s.sockets e with
    | none =>
      simp only [hs]
      simp [alookup_aremove]
    | some sock =>
      simp only [hs]
      simp [alookup_aremove]

/-- After deregister_http, the socket map holds the event id no
longer; other bindings are untouched. -/
theorem deregister_http_sockets (s : HttpPeer) (ns : NetworkState) (e k : EventId) :
    alookup (HttpPeer.deregister_http s ns e).1.sockets k =
      if k = e then none else alookup s.sockets k := by
  unfold HttpPeer.deregister_http
  cases hp : acontains s.peers e with
  | false =>
    simp only [hp, Bool.false_eq_true, if_false]
    cases hs : alookup s.sockets e with
    | none =>
      simp only [hs]
      by_cases hk : k = e
      · subst hk
        simp [hs]
      · simp [hk]
    | some sock =>
      simp only [hs]
      simp [alookup_aremove]
  | true =>
    simp only [hp, if_true]
    cases hs : alookup s.sockets e with
    | none =>
      simp only [hs]
      by_cases hk : k = e
      · subst hk
        simp [hs]
      · simp [hk]
    | some sock =>
      simp only [hs]
      simp [alookup_aremove]

/-- deregister_http never adds a pending-connect binding. -/
theorem deregister_http_connecting_none (s : HttpPeer) (ns : NetworkState) (e k : EventId)
    (h : alookup s.connecting k = none) :
    alookup (HttpPeer.deregister_http s ns e).1.connecting k = none := by
  unfold HttpPeer.deregister_http
  cases hp : acontains s.peers e with
  | false =>
    simp only [hp, Bool.false_eq_true, if_false]
    cases hs : alookup s.sockets e with
    | none => simpa [hs] using h
    | some sock =>
      simp only [hs]
      simp [alookup_aremove, h]
  | true =>
    simp only [hp, if_true]
    cases hs : alookup s.sockets e with
    | none => simpa [hs] using h
    | some sock =>
      simp only [hs]
      simp [alookup_aremove, h]

/-- The clear_timeouts pass rewrites every binding to itself. -/
theorem clearStep_map_id (l : List (EventId × ConversationHttp)) : l.map clearStep = l := by
  induction l with
  | nil => rfl
  | cons kv rest ih => simp [clearStep, ConversationHttp.clear_timeouts, ih]

theorem deregStep_pres_absentPS (id : EventId) (acc : HttpPeer × NetworkState) (e : EventId)
    (h : absentPS id acc) : absentPS id (deregStep acc e) := by
  unfold deregStep
  constructor
  · rw [deregister_http_peers]
    by_cases hk : id = e <;> simp [hk, h.1]
  · rw [deregister_http_sockets]
    by_cases hk : id = e <;> simp [hk, h.2]

theorem deregStep_estab_absentPS (id : EventId) (acc : HttpPeer × NetworkState) :
    absentPS id (deregStep acc id) := by
  unfold deregStep
  constructor
  · rw [deregister_http_peers]
    simp
  · rw [deregister_http_sockets]
    simp

theorem deregStep_pres_connNone (id : EventId) (acc : HttpPeer × NetworkState) (e : EventId)
    (h : connNone id acc) : connNone id (deregStep acc e) := by
  unfold deregStep
  exact deregister_http_connecting_none acc.1 acc.2 e id h

theorem foldl_dereg_pres_absentPS (id : EventId) (l : List EventId)
    (acc : HttpPeer × NetworkState) (h : absentPS id acc) :
    absentPS id (List.foldl deregStep acc l) :=
  foldl_pres_mem (absentPS id) deregStep l acc h
    (fun acc' x _ hx => deregStep_pres_absentPS id acc' x hx)

theorem foldl_dereg_estab_absentPS (id : EventId) (l : List EventId)
    (acc : HttpPeer × NetworkState) (hmem : id ∈ l) :
    absentPS id (List.foldl deregStep acc l) :=
  foldl_estab (absentPS id) deregStep id l acc hmem
    (fun acc' => deregStep_estab_absentPS id acc')
    (fun acc' y hy => deregStep_pres_absentPS id acc' y hy)

theorem foldl_dereg_pres_connNone (id : EventId) (l : List EventId)
    (acc : HttpPeer × NetworkState) (h : connNone id acc) :
    connNone id (List.foldl deregStep acc l) :=
  foldl_pres_mem (connNone id) deregStep l acc h
    (fun acc' x _ hx => deregStep_pres_connNone id acc' x hx)

theorem disconnect_pres_absentPS (id : EventId) (s : HttpPeer) (ns : NetworkState) (now : Nat)
    (h : absentPS id (s, ns)) : absentPS id (HttpPeer.disconnect_unresponsive s ns now) := by
  unfold HttpPeer.disconnect_unresponsive
  exact foldl_dereg_pres_absentPS id _ _ h

theorem disconnect_pres_connNone (id : EventId) (s : HttpPeer) (ns : NetworkState) (now : Nat)
    (h : connNone id (s, ns)) : connNone id (HttpPeer.disconnect_unresponsive s ns now) := by
  unfold HttpPeer.disconnect_unresponsive
  exact foldl_dereg_pres_connNone id _ _ h

theorem clear_pres_absentPS (id : EventId) (t : HttpPeer × NetworkState) (h : absentPS id t) :
    absentPS id ({ t.1 with peers := t.1.peers.map clearStep }, t.2) := by
  constructor
  · show alookup (t.1.peers.map clearStep) id = none
    rw [clearStep_map_id]
    exact h.1
  · exact h.2

theorem clear_pres_connNone (id : EventId) (t : HttpPeer × NetworkState) (h : connNone id t) :
    connNone id ({ t.1 with peers := t.1.peers.map clearStep }, t.2) := h

/-- The flush, close, clear and eviction phases never re-add an event
id to the conversation or socket maps. -/
theorem runTail_pres_absentPS (id : EventId) (d : HttpPeer × NetworkState) (now : Nat)
    (h : absentPS id d) : absentPS id (HttpPeer.runTail d now) := by
  unfold HttpPeer.runTail
  exact disconnect_pres_absentPS id _ _ now
    (clear_pres_absentPS id _ (foldl_dereg_pres_absentPS id _ _ ⟨h.1, h.2⟩))

/-- The flush, close, clear and eviction phases never re-add an event
id to the pending-connect map. -/
theorem runTail_pres_connNone (id : EventId) (d : HttpPeer × NetworkState) (now : Nat)
    (h : connNone id d) : connNone id (HttpPeer.runTail d now) := by
  unfold HttpPeer.runTail
  exact disconnect_pres_connNone id _ _ now
    (clear_pres_connNone id _ (foldl_dereg_pres_connNone id _ _ h))

theorem sameFrame_refl (a : HttpPeer) : sameFrame a a := ⟨rfl, rfl, rfl, rfl, rfl⟩

theorem sameFrame_trans {a b c : HttpPeer} (h1 : sameFrame a b) (h2 : sameFrame b c) :
    sameFrame a c :=
  ⟨h2.1.trans h1.1, h2.2.1.trans h1.2.1, h2.2.2.1.trans h1.2.2.1,
   h2.2.2.2.1.trans h1.2.2.2.1, h2.2.2.2.2.trans h1.2.2.2.2⟩

theorem register_http_frame (s : HttpPeer) (ns : NetworkState) (env : Env) (e : EventId)
    (sock : TcpStream) (url : Option UrlString) (req : Option HttpRequestType) :
    sameFrame s (HttpPeer.register_http s ns env e sock url req).2.1 := by
  unfold HttpPeer.register_http
  split
  · exact ⟨rfl, rfl, rfl, rfl, rfl⟩
  · split
    · exact ⟨rfl, rfl, rfl, rfl, rfl⟩
    · split
      · exact ⟨rfl, rfl, rfl, rfl, rfl⟩
      · split
        · exact ⟨rfl, rfl, rfl, rfl, rfl⟩
        · split
          · exact ⟨rfl, rfl, rfl, rfl, rfl⟩
          · exact ⟨rfl, rfl, rfl, rfl, rfl⟩

/-- Transfer of the frame fact through an equation naming the
register_http result components. -/
theorem frame_of_register_eq {s s2 : HttpPeer} {ns ns2 : NetworkState} {env : Env}
    {e : EventId} {sock : TcpStream} {url : Option UrlString} {req : Option HttpRequestType}
    {res : Except NetErr Unit}
    (heq : HttpPeer.register_http s ns env e sock url req = (res, s2, ns2)) :
    sameFrame s s2 := by
  have hf := register_http_frame s ns env e sock url req
  rw [heq] at hf
  exact hf

theorem deregister_http_frame (s : HttpPeer) (ns : NetworkState) (e : EventId) :
    sameFrame s (HttpPeer.deregister_http s ns e).1 := by
  unfold HttpPeer.deregister_http
  cases hp : acontains s.peers e with
  | false =>
    simp only [hp, Bool.false_eq_true, if_false]
    cases hs : alookup s.sockets e with
    | none =>
      simp only [hs]
      exact ⟨rfl, rfl, rfl, rfl, rfl⟩
    | some sock =>
      simp only [hs]
      exact ⟨rfl, rfl, rfl, rfl, rfl⟩
  | true =>
    simp only [hp, if_true]
    cases hs : alookup s.sockets e with
    | none =>
      simp only [hs]
      exact ⟨rfl, rfl, rfl, rfl, rfl⟩
    | some sock =>
      simp only [hs]
      exact ⟨rfl, rfl, rfl, rfl, rfl⟩

theorem deregStep_frame (x : HttpPeer) (acc : HttpPeer × NetworkState) (e : EventId)
    (h : sameFrame x acc.1) : sameFrame x (deregStep acc e).1 :=
  sameFrame_trans h (deregister_http_frame acc.1 acc.2 e)

theorem foldl_dereg_frame (x : HttpPeer) (l : List EventId) (acc : HttpPeer × NetworkState)
    (h : sameFrame x acc.1) : sameFrame x (List.foldl deregStep acc l).1 :=
  foldl_pres_mem (fun t => sameFrame x t.1) deregStep l acc h
    (fun acc' y _ hy => deregStep_frame x acc' y hy)

theorem processNewStep_frame (env : Env) (x : HttpPeer)
    (acc : List EventId × HttpPeer × NetworkState) (kv : EventId × TcpStream)
    (h : sameFrame x acc.2.1) : sameFrame x (processNewStep env acc kv).2.1 := by
  unfold processNewStep
  split
  · exact h
  · split
    · exact h
    · split
      · rename_i heq
        exact sameFrame_trans h (frame_of_register_eq heq)
      · rename_i heq
        exact sameFrame_trans h (frame_of_register_eq heq)

theorem process_new_frame (s : HttpPeer) (ns : NetworkState) (env : Env)
    (l : List (EventId × TcpStream)) :
    sameFrame s (HttpPeer.process_new_sockets s ns env l).2.1 := by
  unfold HttpPeer.process_new_sockets
  exact foldl_pres_mem (fun t => sameFrame s t.2.1) (processNewStep env) l ([], s, ns)
    (sameFrame_refl s) (fun acc' y _ hy => processNewStep_frame env s acc' y hy)

theorem processConnectingStep_frame (env : Env) (x : HttpPeer)
    (acc : HttpPeer × NetworkState) (e : EventId) (h : sameFrame x acc.1) :
    sameFrame x (processConnectingStep env acc e).1 := by
  unfold processConnectingStep
  split
  · exact h
  · split
    rename_i heq
    have hmid : sameFrame acc.1 { acc.1 with connecting := aremove acc.1.connecting e } :=
      ⟨rfl, rfl, rfl, rfl, rfl⟩
    exact sameFrame_trans (sameFrame_trans h hmid) (frame_of_register_eq heq)

theorem process_connecting_frame (s : HttpPeer) (ns : NetworkState) (env : Env)
    (ready : List EventId) :
    sameFrame s (HttpPeer.process_connecting_sockets s ns env ready).1 := by
  unfold HttpPeer.process_connecting_sockets
  exact foldl_pres_mem (fun t => sameFrame s t.1) (processConnectingStep env) ready (s, ns)
    (sameFrame_refl s) (fun acc' y _ hy => processConnectingStep_frame env s acc' y hy)

theorem processReadyStep_frame (x : HttpPeer)
    (acc : (List StacksMessageType × List EventId) × HttpPeer) (e : EventId)
    (h : sameFrame x acc.2) : sameFrame x (processReadyStep acc e).2 := by
  unfold processReadyStep
  split
  · split
    · split
      · exact sameFrame_trans h ⟨rfl, rfl, rfl, rfl, rfl⟩
      · exact sameFrame_trans h ⟨rfl, rfl, rfl, rfl, rfl⟩
    · exact h
  · exact h

theorem process_ready_frame (s : HttpPeer) (ready : List EventId) :
    sameFrame s (HttpPeer.process_ready_sockets s ready).2 := by
  unfold HttpPeer.process_ready_sockets
  exact foldl_pres_mem (fun t => sameFrame s t.2) processReadyStep ready (([], []), s)
    (sameFrame_refl s) (fun acc' y _ hy => processReadyStep_frame s acc' y hy)

theorem disconnect_frame (x : HttpPeer) (s : HttpPeer) (ns : NetworkState) (now : Nat)
    (h : sameFrame x s) : sameFrame x (HttpPeer.disconnect_unresponsive s ns now).1 := by
  unfold HttpPeer.disconnect_unresponsive
  exact foldl_dereg_frame x _ (s, ns) h

theorem beforeFlush_frame (s : HttpPeer) (ns : NetworkState) (env : Env)
    (ps : NetworkPollState) : sameFrame s (HttpPeer.beforeFlush s ns env ps).1.1 := by
  unfold HttpPeer.beforeFlush HttpPeer.afterConnecting
  apply foldl_dereg_frame
  exact sameFrame_trans
    (sameFrame_trans (process_new_frame s ns env ps.new)
      (process_connecting_frame _ _ env ps.ready))
    (process_ready_frame _ ps.ready)

theorem runTail_frame (d : HttpPeer × NetworkState) (now : Nat) :
    sameFrame d.1 (HttpPeer.runTail d now).1 := by
  unfold HttpPeer.runTail
  apply disconnect_frame
  exact sameFrame_trans (foldl_dereg_frame d.1 _ _ (sameFrame_refl d.1))
    ⟨rfl, rfl, rfl, rfl, rfl⟩

/-- A successful saturate pass only consumes the send script; every
other behavioural field of the conversation is unchanged, in
particular the chat result. -/
theorem saturate_pres_chat {c c2 : ConversationHttp}
    (h : HttpPeer.saturate_http_socket c = Except.ok c2) :
    c2.behavior.chatResult = c.behavior.chatResult := by
  unfold HttpPeer.saturate_http_socket at h
  cases hs : saturateGo c.behavior.sendScript with
  | error e =>
    rw [hs] at h
    cases h
  | ok rest =>
    rw [hs] at h
    cases h
    rfl

/-- Whatever the receive outcome, process_http_conversation surfaces
exactly the messages produced by the chat step. -/
theorem process_http_chat_msgs (cv : BurnchainView) (e : EventId) (convo : ConversationHttp)
    (m : List StacksMessageType) (h : convo.behavior.chatResult = Except.ok m) :
    ∃ alive c2, HttpPeer.process_http_conversation cv e convo = (Except.ok (alive, m), c2) := by
  cases hr : convo.behavior.recvResult with
  | ok u =>
    simp only [HttpPeer.process_http_conversation, hr, h]
    exact ⟨_, _, rfl⟩
  | error err =>
    cases err with
    | PermanentlyDrained =>
      simp only [HttpPeer.process_http_conversation, hr, h]
      exact ⟨_, _, rfl⟩
    | InvalidMessage =>
      cases hrep : convo.behavior.replyErrorResult with
      | error e2 =>
        simp only [HttpPeer.process_http_conversation, hr, hrep, h]
        exact ⟨_, _, rfl⟩
      | ok u2 =>
        cases hsat : HttpPeer.saturate_http_socket convo with
        | error e3 =>
          simp only [HttpPeer.process_http_conversation, hr, hrep, hsat, h]
          exact ⟨_, _, rfl⟩
        | ok c2 =>
          have h2 : c2.behavior.chatResult = Except.ok m := by
            rw [saturate_pres_chat hsat, h]
          simp only [HttpPeer.process_http_conversation, hr, hrep, hsat, h2]
          exact ⟨_, _, rfl⟩
    | AlreadyConnected eid =>
      simp only [HttpPeer.process_http_conversation, hr, h]
      exact ⟨_, _, rfl⟩
    | TooManyPeers =>
      simp only [HttpPeer.process_http_conversation, hr, h]
      exact ⟨_, _, rfl⟩
    | SocketError =>
      simp only [HttpPeer.process_http_conversation, hr, h]
      exact ⟨_, _, rfl⟩
    | Other code =>
      simp only [HttpPeer.process_http_conversation, hr, h]
      exact ⟨_, _, rfl⟩

/-- Driving one ready event id never touches the socket map. -/
theorem processReadyStep_sockets (acc : (List StacksMessageType × List EventId) × HttpPeer)
    (e : EventId) : (processReadyStep acc e).2.sockets = acc.2.sockets := by
  unfold processReadyStep
  split
  · split
    · split
      · rfl
      · rfl
    · rfl
  · rfl

/-- Driving one ready event id leaves the conversations of other
event ids in place. -/
theorem processReadyStep_peers_ne (acc : (List StacksMessageType × List EventId) × HttpPeer)
    (e k : EventId) (hk : k ≠ e) :
    alookup (processReadyStep acc e).2.peers k = alookup acc.2.peers k := by
  unfold processReadyStep
  split
  · split
    · split
      · exact alookup_ainsert_ne acc.2.peers e _ k hk
      · exact alookup_ainsert_ne acc.2.peers e _ k hk
    · rfl
  · rfl

/-- Driving one ready event id only appends to the collected
messages. -/
theorem processReadyStep_msgs_mono (acc : (List StacksMessageType × List EventId) × HttpPeer)
    (e : EventId) : ∃ t, (processReadyStep acc e).1.1 = acc.1.1 ++ t := by
  unfold processReadyStep
  split
  · split
    · split
      · exact ⟨_, rfl⟩
      · exact ⟨[], by simp⟩
    · exact ⟨[], by simp⟩
  · exact ⟨[], by simp⟩

/-- The ready pass only appends to the collected messages. -/
theorem foldl_ready_msgs_mono :
    ∀ (l : List EventId) (acc : (List StacksMessageType × List EventId) × HttpPeer),
      ∃ t, (List.foldl processReadyStep acc l).1.1 = acc.1.1 ++ t := by
  intro l
  induction l with
  | nil => intro acc; exact ⟨[], by simp⟩
  | cons hd tl ih =>
    intro acc
    obtain ⟨t1, h1⟩ := processReadyStep_msgs_mono acc hd
    obtain ⟨t2, h2⟩ := ih (processReadyStep acc hd)
    refine ⟨t1 ++ t2, ?_⟩
    simp only [List.foldl_cons, h2, h1, List.append_assoc]

/-- Driving a ready event id whose socket and conversation are
present appends exactly the chat messages of that conversation. -/
theorem processReadyStep_hit (acc : (List StacksMessageType × List EventId) × HttpPeer)
    (id : EventId) (c : ConversationHttp) (m : List StacksMessageType)
    (hsock : acontains acc.2.sockets id = true)
    (hpeer : alookup acc.2.peers id = some c)
    (hchat : c.behavior.chatResult = Except.ok m) :
    (processReadyStep acc id).1.1 = acc.1.1 ++ m := by
  obtain ⟨alive, c2, heq⟩ := process_http_chat_msgs acc.2.chain_view id c m hchat
  unfold processReadyStep
  simp only [hsock, hpeer, heq, if_true]

/-- Main driving lemma: if some ready event id holds an established
conversation whose chat yields the message list m, then m occurs as a
contiguous block of the messages collected by the ready pass. -/
theorem ready_fold_contains_chat (id : EventId) (c : ConversationHttp)
    (m : List StacksMessageType) :
    ∀ (l : List EventId) (acc : (List StacksMessageType × List EventId) × HttpPeer),
      id ∈ l → acontains acc.2.sockets id = true → alookup acc.2.peers id = some c →
      c.behavior.chatResult = Except.ok m →
      ∃ pre post, (List.foldl processReadyStep acc l).1.1 = pre ++ m ++ post := by
  intro l
  induction l with
  | nil =>
    intro acc h
    simp at h
  | cons hd tl ih =>
    intro acc hmem hsock hpeer hchat
    by_cases hd_id : hd = id
    · subst hd_id
      have hstep := processReadyStep_hit acc hd c m hsock hpeer hchat
      obtain ⟨t, ht⟩ := foldl_ready_msgs_mono tl (processReadyStep acc hd)
      refine ⟨acc.1.1, t, ?_⟩
      simp only [List.foldl_cons, ht, hstep, List.append_assoc]
    · have hmem2 : id ∈ tl := by
        cases List.mem_cons.mp hmem with
        | inl hcase => exact absurd hcase.symm hd_id
        | inr hcase => exact hcase
      refine ih (processReadyStep acc hd) hmem2 ?_ ?_ hchat
      · rw [processReadyStep_sockets]
        exact hsock
      · rw [processReadyStep_peers_ne acc hd id (fun he => hd_id he.symm)]
        exact hpeer

/-- The flush pass only accumulates event ids. -/
theorem flushStep_mono (close : List EventId) (kv : EventId × ConversationHttp) (id : EventId)
    (h : id ∈ close) : id ∈ flushStep close kv := by
  unfold flushStep
  cases hf : kv.2.behavior.tryFlushResult with
  | ok u =>
    simp only [hf]
    split
    · exact List.mem_append_left _ h
    · exact h
  | error e =>
    simp only [hf]
    split
    · exact List.mem_append_left _ (List.mem_append_left _ h)
    · exact List.mem_append_left _ h

/-- A conversation whose flush failed, or which is drained and not
keep-alive, is marked for closing by its own flush step. -/
theorem flushStep_hit (close : List EventId) (kv : EventId × ConversationHttp)
    (hcond : (∃ e, kv.2.behavior.tryFlushResult = Except.error e) ∨
             (kv.2.is_drained = true ∧ kv.2.is_keep_alive = false)) :
    kv.1 ∈ flushStep close kv := by
  unfold flushStep
  cases hf : kv.2.behavior.tryFlushResult with
  | ok u =>
    simp only [hf]
    rcases hcond with ⟨e, he⟩ | ⟨hd, hk⟩
    · rw [hf] at he
      cases he
    · rw [if_pos]
      · exact List.mem_append_right _ (by simp)
      · simp [hd, hk]
  | error e =>
    simp only [hf]
    split
    · exact List.mem_append_left _ (List.mem_append_right _ (by simp))
    · exact List.mem_append_right _ (by simp)

/-- Every established conversation satisfying the closing condition
during the flush pass is in the returned close list. -/
theorem flush_marks (s : HttpPeer) (id : EventId) (c : ConversationHttp)
    (hmem : (id, c) ∈ s.peers)
    (hcond : (∃ e, c.behavior.tryFlushResult = Except.error e) ∨
             (c.is_drained = true ∧ c.is_keep_alive = false)) :
    id ∈ (HttpPeer.flush_conversations s).1 := by
  unfold HttpPeer.flush_conversations
  exact foldl_estab (fun close => id ∈ close) flushStep (id, c) s.peers [] hmem
    (fun acc => flushStep_hit acc (id, c) hcond)
    (fun acc kv hacc => flushStep_mono acc kv id hacc)

/-- A successful find_free_conversation names an established
conversation with the requested URL and no request in flight. -/
theorem findFreeGo_spec :
    ∀ (l : List (EventId × ConversationHttp)) (u : UrlString) (eid : EventId),
      findFreeGo u l = some eid →
      ∃ c, (eid, c) ∈ l ∧ c.get_url = some u ∧ c.is_request_inflight = false := by
  intro l
  induction l with
  | nil =>
    intro u eid h
    simp [findFreeGo] at h
  | cons kv rest ih =>
    intro u eid h
    cases hku : kv.2.get_url with
    | none =>
      simp only [findFreeGo, hku] at h
      obtain ⟨c, hc1, hc2, hc3⟩ := ih u eid h
      exact ⟨c, List.mem_cons_of_mem _ hc1, hc2, hc3⟩
    | some url =>
      simp only [findFreeGo, hku] at h
      by_cases hcond : url = u ∧ kv.2.is_request_inflight = false
      · rw [if_pos hcond] at h
        cases h
        refine ⟨kv.2, ?_, ?_, hcond.2⟩
        · exact List.mem_cons_self _ _
        · rw [hku, hcond.1]
      · rw [if_neg hcond] at h
        obtain ⟨c, hc1, hc2, hc3⟩ := ih u eid h
        exact ⟨c, List.mem_cons_of_mem _ hc1, hc2, hc3⟩

/-- If some established conversation has the requested URL and no
request in flight, find_free_conversation succeeds. -/
theorem findFreeGo_isSome :
    ∀ (l : List (EventId × ConversationHttp)) (u : UrlString) (id0 : EventId)
      (c0 : ConversationHttp), (id0, c0) ∈ l → c0.get_url = some u →
      c0.is_request_inflight = false → ∃ eid, findFreeGo u l = some eid := by
  intro l
  induction l with
  | nil =>
    intro u id0 c0 h
    simp at h
  | cons kv rest ih =>
    intro u id0 c0 hmem hurl hfree
    cases hku : kv.2.get_url with
    | none =>
      rcases List.mem_cons.mp hmem with hcase | hcase
      · rw [← hcase] at hku
        rw [hurl] at hku
        cases hku
      · obtain ⟨eid, he⟩ := ih u id0 c0 hcase hurl hfree
        exact ⟨eid, by simp only [findFreeGo, hku, he]⟩
    | some url =>
      by_cases hcond : url = u ∧ kv.2.is_request_inflight = false
      · exact ⟨kv.1, by simp only [findFreeGo, hku, if_pos hcond]⟩
      · rcases List.mem_cons.mp hmem with hcase | hcase
        · exfalso
          apply hcond
          rw [← hcase] at hku
          constructor
          · rw [hurl] at hku
            cases hku
            rfl
          · rw [← hcase]
            exact hfree
        · obtain ⟨eid, he⟩ := ih u id0 c0 hcase hurl hfree
          exact ⟨eid, by simp only [findFreeGo, hku, if_neg hcond, he]⟩

/-- C6: in the idle-eviction step (disconnect_unresponsive), an
established conversation is deregistered exactly when both its
effective last-request time (the connection time when no request was
ever received) and its effective last-response time (the connection
time when no response was ever sent) are more than idle_timeout
behind the current time; when either condition fails the conversation
stays, bound to the same conversation record. -/
theorem disconnect_eviction (s : HttpPeer) (ns : NetworkState) (now : Nat) (id : EventId)
    (c : ConversationHttp) (hnd : keysNodup s.peers) (h : alookup s.peers id = some c) :
    alookup (HttpPeer.disconnect_unresponsive s ns now).1.peers id =
      if HttpPeer.effective_last_request c + s.connection_opts.idle_timeout < now ∧
         HttpPeer.effective_last_response c + s.connection_opts.idle_timeout < now
      then none else some c := by
  unfold HttpPeer.disconnect_unresponsive
  by_cases hc : HttpPeer.effective_last_request c + s.connection_opts.idle_timeout < now ∧
      HttpPeer.effective_last_response c + s.connection_opts.idle_timeout < now
  · rw [if_pos hc]
    have hmem : id ∈ (s.peers.filter (isIdle s.connection_opts now)).map Prod.fst := by
      refine List.mem_map.mpr ⟨(id, c), ?_, rfl⟩
      refine List.mem_filter.mpr ⟨alookup_some_mem h, ?_⟩
      simp only [isIdle, decide_eq_true_eq]
      exact hc
    exact (foldl_dereg_estab_absentPS id _ (s, ns) hmem).1
  · rw [if_neg hc]
    have hnotmem : id ∉ (s.peers.filter (isIdle s.connection_opts now)).map Prod.fst := by
      intro hmem
      obtain ⟨kv, hkv, hfst⟩ := List.mem_map.mp hmem
      obtain ⟨hkvmem, hkvidle⟩ := List.mem_filter.mp hkv
      have hlk : alookup s.peers kv.1 = some kv.2 := alookup_of_mem_nodup hnd hkvmem
      rw [hfst] at hlk
      have hkc : kv.2 = c := Option.some.inj (hlk.symm.trans h)
      apply hc
      have hprop := of_decide_eq_true hkvidle
      rw [hkc] at hprop
      exact hprop
    exact foldl_pres_mem (fun t => alookup t.1.peers id = some c) deregStep _ (s, ns) h
      (fun acc' x hx hacc => by
        show alookup (HttpPeer.deregister_http acc'.1 acc'.2 x).1.peers id = some c
        rw [deregister_http_peers,
          if_neg (fun he : id = x => hnotmem (by rw [he]; exact hx))]
        exact hacc)

/-- C1: evaluation of deregister_http at a state where the identifier
7 is present only in the pending-connect map.  The call returns with
the engine and reactor state completely unchanged: the pending-connect
entry is not purged, because the source removes it only inside the
branch taken when a socket entry exists, and no reactor deregistration
is logged.  This exhibits the divergence from the claim that after
deregister the identifier is absent from all three maps. -/
theorem deregister_http_pending_only_noop :
    HttpPeer.deregister_http sC1 ns0 7 = (sC1, ns0) ∧
    alookup (HttpPeer.deregister_http sC1 ns0 7).1.connecting 7 = some pendingEntry1 :=
  ⟨rfl, rfl⟩

/-- C2 counterexample: with per-host limit 2 and two other inbound
conversations already connected from the same host (the count meets
the limit), a third inbound registration from that host is admitted,
because the source rejects only when the count strictly exceeds the
limit.  The claim says this third registration fails with
TooManyPeers. -/
theorem register_http_per_host_at_limit_admits :
    (HttpPeer.register_http sC2 ns0 env0 3 sock3 none none).1 = Except.ok () := rfl

/-- C2 (amended): admission succeeds exactly when neither the inbound
total-capacity check fires nor the count of other inbound
conversations sharing the host strictly exceeds the per-host limit;
in particular rejection on the per-host rule requires count strictly
greater than max_clients_per_host, so with limit 2 three inbound
sockets from one address are all admitted and a fourth is rejected. -/
theorem can_register_http_ok_iff (s : HttpPeer) (addr : SocketAddr)
    (url : Option UrlString) :
    HttpPeer.can_register_http s addr url = Except.ok () ↔
      (¬(url = none ∧ s.peers.length + 1 > s.connection_opts.num_clients) ∧
       ¬(s.count_inbound_ip_addrs addr > s.connection_opts.max_clients_per_host)) := by
  unfold HttpPeer.can_register_http
  by_cases h1 : url = none ∧ s.peers.length + 1 > s.connection_opts.num_clients
  · rw [if_pos h1]
    simp [h1]
  · rw [if_neg h1]
    by_cases h2 : s.count_inbound_ip_addrs addr > s.connection_opts.max_clients_per_host
    · rw [if_pos h2]
      simp [h1, h2]
    · rw [if_neg h2]
      simp [h1, h2]

/-- C3: evaluation of register_http at a socket whose peer-address
read fails.  The call returns SocketError with the engine state and
the reactor state both unchanged: in particular no
network_state.deregister call is logged, so the socket is NOT
deregistered from the reactor on this early failure path (the
admission-failure path of the same function does log one).  This
exhibits the divergence from the claim that the socket is still
deregistered from the reactor before returning. -/
theorem register_http_peer_addr_failure_no_dereg :
    HttpPeer.register_http basePeer ns0 env0 5 sockBad none none =
      (Except.error NetErr.SocketError, basePeer, ns0) := rfl

/-- C4: whenever some established conversation targets the requested
URL and has no request in flight, connect_http returns
AlreadyConnected carrying the identifier of such a conversation, and
returns the engine state (all three registry maps) and the reactor
state (no connect, register or deregister call logged) unchanged. -/
theorem connect_http_already_connected (s : HttpPeer) (ns : NetworkState) (u : UrlString)
    (addr : SocketAddr) (req : Option HttpRequestType) (id0 : EventId)
    (c0 : ConversationHttp) (hnd : keysNodup s.peers) (hmem : (id0, c0) ∈ s.peers)
    (hurl : c0.get_url = some u) (hfree : c0.is_request_inflight = false) :
    ∃ eid c, alookup s.peers eid = some c ∧ c.get_url = some u ∧
      c.is_request_inflight = false ∧
      HttpPeer.connect_http s ns u addr req =
        (Except.error (NetErr.AlreadyConnected eid), s, ns) := by
  obtain ⟨eid, hfind⟩ := findFreeGo_isSome s.peers u id0 c0 hmem hurl hfree
  obtain ⟨c, hcmem, hcu, hcf⟩ := findFreeGo_spec s.peers u eid hfind
  refine ⟨eid, c, alookup_of_mem_nodup hnd hcmem, hcu, hcf, ?_⟩
  unfold HttpPeer.connect_http HttpPeer.find_free_conversation
  rw [hfind]

/-- Witness for C4 at a concrete state holding one free conversation
to url4. -/
theorem connect_http_already_connected_witness :
    ∃ eid c, alookup sC4.peers eid = some c ∧ c.get_url = some url4 ∧
      c.is_request_inflight = false ∧
      HttpPeer.connect_http sC4 ns0 url4 addr0 none =
        (Except.error (NetErr.AlreadyConnected eid), sC4, ns0) :=
  connect_http_already_connected sC4 ns0 url4 addr0 none 4 freeConvo (by decide)
    (List.mem_cons_self _ _) rfl rfl

/-- Admission fails on the total-capacity check for an inbound
registration that would exceed num_clients. -/
theorem can_register_http_inbound_over (s : HttpPeer) (addr : SocketAddr)
    (hover : s.peers.length + 1 > s.connection_opts.num_clients) :
    HttpPeer.can_register_http s addr none = Except.error NetErr.TooManyPeers := by
  unfold HttpPeer.can_register_http
  rw [if_pos ⟨rfl, hover⟩]

/-- Admission succeeds for an outbound registration whose host count
is within the per-host limit, regardless of num_clients. -/
theorem can_register_http_outbound_ok (s : HttpPeer) (addr : SocketAddr) (u : UrlString)
    (hle : HttpPeer.count_inbound_ip_addrs s addr ≤ s.connection_opts.max_clients_per_host) :
    HttpPeer.can_register_http s addr (some u) = Except.ok () := by
  unfold HttpPeer.can_register_http
  rw [if_neg (fun hco => Option.noConfusion hco.1), if_neg (Nat.not_lt.mpr hle)]

/-- C5: an inbound registration is rejected with TooManyPeers when it
would exceed the total-peer limit, the socket is deregistered from
the reactor (exactly one deregister call for this identifier is
logged) and the identifier is inserted into no map (the engine state
is returned unchanged); an outbound registration with no initial
request succeeds regardless of the total-peer limit as long as the
per-host count is within bounds, so outbound registrations are not
subject to the total-peer check. -/
theorem register_http_admission (s : HttpPeer) (ns : NetworkState) (env : Env)
    (id : EventId) (sock : TcpStream) (addr : SocketAddr) (req : Option HttpRequestType)
    (u : UrlString) (hpa : sock.peerAddr = some addr) :
    (s.peers.length + 1 > s.connection_opts.num_clients →
      HttpPeer.register_http s ns env id sock none req =
        (Except.error NetErr.TooManyPeers, s, NetworkState.deregister ns id)) ∧
    (HttpPeer.count_inbound_ip_addrs s addr ≤ s.connection_opts.max_clients_per_host →
      (HttpPeer.register_http s ns env id sock (some u) none).1 = Except.ok ()) := by
  constructor
  · intro hover
    simp only [HttpPeer.register_http, hpa, can_register_http_inbound_over s addr hover]
  · intro hle
    simp only [HttpPeer.register_http, hpa, can_register_http_outbound_ok s addr u hle]

/-- Witness for C5: with total-peer limit 1 and one active inbound
conversation, a second inbound registration fails with TooManyPeers
and logs the reactor deregistration, while an outbound registration
succeeds in the same state. -/
theorem register_http_admission_witness :
    HttpPeer.register_http sC5 ns0 env0 2 sock3 none none =
      (Except.error NetErr.TooManyPeers, sC5, NetworkState.deregister ns0 2) ∧
    (HttpPeer.register_http sC5 ns0 env0 2 sock3 (some url5) none).1 = Except.ok () := by
  constructor
  · exact (register_http_admission sC5 ns0 env0 2 sock3 { ip := 1, port := 12 } none url5
      rfl).1 (by decide)
  · exact (register_http_admission sC5 ns0 env0 2 sock3 { ip := 1, port := 12 } none url5
      rfl).2 (by decide)

/-- Witness for C6: with idle timeout 60 at time 1000, the
conversation whose request and response are both 61 seconds old is
evicted, and the conversation whose response is only 10 seconds old
is kept even though its last request is 61 seconds old. -/
theorem disconnect_eviction_witness :
    alookup (HttpPeer.disconnect_unresponsive sC6 ns0 1000).1.peers 1 = none ∧
    alookup (HttpPeer.disconnect_unresponsive sC6 ns0 1000).1.peers 2 = some cFresh := by
  constructor
  · have h := disconnect_eviction sC6 ns0 1000 1 cOld (by decide) rfl
    rw [h]
    exact if_pos ⟨by decide, by decide⟩
  · have h := disconnect_eviction sC6 ns0 1000 2 cFresh (by decide) rfl
    rw [h]
    exact if_neg (fun hco => absurd hco.2 (by decide))

/-- C7: every conversation that is established when the flush pass
begins and then reports drained without keep-alive, or whose
try_flush errors, is marked for closing and deregistered from all
three registry maps before that same call to run returns.  The
pending-connect hypothesis is the data-model invariant that an
established identifier has no pending-connect entry. -/
theorem run_drain_close_deregisters (s : HttpPeer) (ns : NetworkState) (v : BurnchainView)
    (env : Env) (ps : NetworkPollState) (id : EventId) (c : ConversationHttp)
    (hpeer : alookup (HttpPeer.beforeFlush { s with chain_view := v } ns env ps).1.1.peers id
      = some c)
    (hcond : (c.is_drained = true ∧ c.is_keep_alive = false) ∨
             (∃ e2, c.behavior.tryFlushResult = Except.error e2))
    (hconn : alookup
      (HttpPeer.beforeFlush { s with chain_view := v } ns env ps).1.1.connecting id = none) :
    alookup (HttpPeer.run s ns v env ps).2.1.peers id = none ∧
    alookup (HttpPeer.run s ns v env ps).2.1.sockets id = none ∧
    alookup (HttpPeer.run s ns v env ps).2.1.connecting id = none := by
  rw [run_decompose]
  have hmem := alookup_some_mem hpeer
  have hclose : id ∈ (HttpPeer.flush_conversations
      (HttpPeer.beforeFlush { s with chain_view := v } ns env ps).1.1).1 :=
    flush_marks _ id c hmem hcond.symm
  have habs : absentPS id (List.foldl deregStep
      ((HttpPeer.flush_conversations
        (HttpPeer.beforeFlush { s with chain_view := v } ns env ps).1.1).2,
       (HttpPeer.beforeFlush { s with chain_view := v } ns env ps).1.2)
      (HttpPeer.flush_conversations
        (HttpPeer.beforeFlush { s with chain_view := v } ns env ps).1.1).1) :=
    foldl_dereg_estab_absentPS id _ _ hclose
  have hcn : connNone id (List.foldl deregStep
      ((HttpPeer.flush_conversations
        (HttpPeer.beforeFlush { s with chain_view := v } ns env ps).1.1).2,
       (HttpPeer.beforeFlush { s with chain_view := v } ns env ps).1.2)
      (HttpPeer.flush_conversations
        (HttpPeer.beforeFlush { s with chain_view := v } ns env ps).1.1).1) :=
    foldl_dereg_pres_connNone id _ _ hconn
  have habs2 := clear_pres_absentPS id _ habs
  have hcn2 := clear_pres_connNone id _ hcn
  have habs3 := disconnect_pres_absentPS id _ _ env.now habs2
  have hcn3 := disconnect_pres_connNone id _ _ env.now hcn2
  exact ⟨habs3.1, habs3.2, hcn3⟩

/-- Witness for C7: with no readiness data, the drained
non-keep-alive conversation 4 is deregistered from all maps by the end
of the tick. -/
theorem run_drain_close_deregisters_witness :
    alookup (HttpPeer.run sC7 ns0 0 env0 psEmpty).2.1.peers 4 = none ∧
    alookup (HttpPeer.run sC7 ns0 0 env0 psEmpty).2.1.sockets 4 = none ∧
    alookup (HttpPeer.run sC7 ns0 0 env0 psEmpty).2.1.connecting 4 = none :=
  run_drain_close_deregisters sC7 ns0 0 env0 psEmpty 4 cDrained rfl
    (Or.inl ⟨rfl, rfl⟩) rfl

/-- C8 counterexample: starting from a state whose only activity is
the pending outbound connection 5, whose chat step yields the message
42 and whose processing encounters no error, one call to run promotes
the connection and then drives it for application traffic in the same
tick: the tick's output contains the message produced by its chat
step (were the promoted connection never driven in the promoting
tick, the output would be empty). -/
theorem run_promoted_driven_same_tick : (HttpPeer.run sC8 ns0 0 env8 ps8).1 =
    Except.ok [42] := rfl

/-- C8 (amended): an outbound pending connection that is promoted to
established during the tick is driven for application traffic later
in that same tick whenever its registration succeeded: since its
identifier is in the ready set, the subsequent driving pass processes
it, and the messages produced by its chat step appear as a contiguous
block of the messages the tick returns. -/
theorem run_drives_promoted (s : HttpPeer) (ns : NetworkState) (v : BurnchainView)
    (env : Env) (ps : NetworkPollState) (id : EventId)
    (entry : TcpStream × Option UrlString × Option HttpRequestType)
    (c : ConversationHttp) (m : List StacksMessageType)
    (_hpend : alookup s.connecting id = some entry)
    (hready : id ∈ ps.ready)
    (hsock : acontains
      (HttpPeer.afterConnecting { s with chain_view := v } ns env ps).1.sockets id = true)
    (hconvo : alookup
      (HttpPeer.afterConnecting { s with chain_view := v } ns env ps).1.peers id = some c)
    (hchat : c.behavior.chatResult = Except.ok m) :
    ∃ pre post, (HttpPeer.run s ns v env ps).1 = Except.ok (pre ++ m ++ post) := by
  rw [run_decompose]
  obtain ⟨pre, post, hm⟩ := ready_fold_contains_chat id c m ps.ready
    (([], []), (HttpPeer.afterConnecting { s with chain_view := v } ns env ps).1)
    hready hsock hconvo hchat
  refine ⟨pre, post, ?_⟩
  show Except.ok ((List.foldl processReadyStep
    (([], []), (HttpPeer.afterConnecting { s with chain_view := v } ns env ps).1)
    ps.ready).1.1) = Except.ok (pre ++ m ++ post)
  exact congrArg Except.ok hm

/-- Witness for C8 (amended) at the concrete promoted connection 5. -/
theorem run_drives_promoted_witness :
    ∃ pre post, (HttpPeer.run sC8 ns0 0 env8 ps8).1 = Except.ok (pre ++ [42] ++ post) :=
  run_drives_promoted sC8 ns0 0 env8 ps8 5 (sock8, some url8, none) c8conv [42]
    rfl (by decide) rfl rfl rfl

/-- C9: run never surfaces a per-connection failure to its caller:
its result is always the Ok of the messages collected while driving
ready conversations, and every event id that the driving pass found
dead (receive, chat or send failure, or a rogue id without socket or
conversation) is deregistered from the conversation and socket maps
by the time run returns, while the tick continues over the remaining
connections. -/
theorem run_contains_per_connection_errors (s : HttpPeer) (ns : NetworkState)
    (v : BurnchainView) (env : Env) (ps : NetworkPollState) :
    (∃ msgs s2 ns2, HttpPeer.run s ns v env ps = (Except.ok msgs, s2, ns2)) ∧
    (∀ id, id ∈ (HttpPeer.beforeFlush { s with chain_view := v } ns env ps).2.2 →
      alookup (HttpPeer.run s ns v env ps).2.1.peers id = none ∧
      alookup (HttpPeer.run s ns v env ps).2.1.sockets id = none) := by
  constructor
  · exact ⟨_, _, _, run_decompose s ns v env ps⟩
  · intro id hid
    rw [run_decompose]
    have habs : absentPS id (HttpPeer.beforeFlush { s with chain_view := v } ns env ps).1 :=
      foldl_dereg_estab_absentPS id _ _ hid
    have hfin := runTail_pres_absentPS id _ env.now habs
    exact ⟨hfin.1, hfin.2⟩

/-- Witness for C9: the conversation 3 whose receive reports the
remote side closed is found dead and is deregistered by the end of
the tick. -/
theorem run_contains_per_connection_errors_witness :
    alookup (HttpPeer.run sC9 ns0 0 env0 ps9).2.1.peers 3 = none ∧
    alookup (HttpPeer.run sC9 ns0 0 env0 ps9).2.1.sockets 3 = none :=
  (run_contains_per_connection_errors sC9 ns0 0 env0 ps9).2 3 (by decide)

/-- C10: run stores the supplied chain view and leaves the
network_id, burnchain, connection_opts and http_server_handle fields
of the engine state unchanged, whatever the readiness batch and the
per-connection outcomes. -/
theorem run_frame_effect (s : HttpPeer) (ns : NetworkState) (v : BurnchainView) (env : Env)
    (ps : NetworkPollState) :
    (HttpPeer.run s ns v env ps).2.1.chain_view = v ∧
    (HttpPeer.run s ns v env ps).2.1.network_id = s.network_id ∧
    (HttpPeer.run s ns v env ps).2.1.burnchain = s.burnchain ∧
    (HttpPeer.run s ns v env ps).2.1.connection_opts = s.connection_opts ∧
    (HttpPeer.run s ns v env ps).2.1.http_server_handle = s.http_server_handle := by
  have h := sameFrame_trans (beforeFlush_frame { s with chain_view := v } ns env ps)
    (runTail_frame (HttpPeer.beforeFlush { s with chain_view := v } ns env ps).1 env.now)
  rw [run_decompose]
  exact ⟨h.2.1, h.1, h.2.2.1, h.2.2.2.1, h.2.2.2.2⟩
